import Mathlib

/-!
Verification of the Calculation Engine & History Manager of the
IS601-Assignment-5 calculator.

The embedding follows the Python sources:
  * `app/exceptions.py`   — exception taxonomy
  * `app/calculation.py`  — `Calculation` record, `calculate`, `to_dict`,
    `from_dict`, `__eq__`
  * `app/calculator.py`   — `Calculator.perform_operation`, `undo`, `redo`,
    `clear_history`, `load_history`
  * `app/calculation/__init__.py` — `CalculationFactory.create_calculation`

Exact decimal numbers (`decimal.Decimal`) are embedded as rationals (ℚ);
the four basic operations act on them exactly, matching the spec's "exact
decimal" glossary entry.  Results that the source computes through binary
floating-point `pow` are embedded through an explicit `FloatModel`
parameter holding the two float-valued kernels, so every theorem quantifies
over the float behaviour instead of fixing one.  Python exceptions are
values of an inductive type `PyExc`; `try`/`except` blocks become `match`
expressions on `Except` values.
-/

/-- Exception taxonomy of `app/exceptions.py`, together with the built-in
Python exception classes the engine interacts with (`ValueError` from the
legacy factory, everything else collapsed into `otherExc`). -/
inductive PyExc where
  | validationError (msg : String)
  | operationError (msg : String)
  | valueError (msg : String)
  | otherExc (msg : String)
deriving DecidableEq

/-- The message carried by an exception (`str(e)` in Python). -/
def PyExc.msg : PyExc → String
  | .validationError m => m
  | .operationError m => m
  | .valueError m => m
  | .otherExc m => m

/-- The two floating-point kernels of `Calculation.calculate`
(`Decimal(pow(float(x), float(y)))` for Power and
`Decimal(pow(float(x), 1 / float(y)))` for Root).  Binary floating point is
not embedded; each theorem quantifies over this structure. -/
structure FloatModel where
  powf : ℚ → ℚ → ℚ
  rootf : ℚ → ℚ → ℚ

/-- A trivial float model used to instantiate witnesses whose claims never
touch the Power/Root success path. -/
def fm0 : FloatModel := ⟨fun _ _ => 0, fun _ _ => 0⟩

/-- The `Calculation` dataclass of `app/calculation.py`: operation name,
the two operands, the computed result and the timestamp (datetimes are
embedded as naturals). -/
structure Calculation where
  operation : String
  operand1 : ℚ
  operand2 : ℚ
  result : ℚ
  timestamp : ℕ
deriving DecidableEq

/-- `Calculation.calculate` (app/calculation.py lines 48–86): the
name-indexed dictionary of operation lambdas, including the guard branches
of the `_raise_div_zero`, `_raise_neg_power` and `_raise_invalid_root`
helpers (lines 88–126). -/
def calculate (fm : FloatModel) (operation : String) (x y : ℚ) : Except PyExc ℚ :=
  if operation = "Addition" then .ok (x + y)
  else if operation = "Subtraction" then .ok (x - y)
  else if operation = "Multiplication" then .ok (x * y)
  else if operation = "Division" then
    if y ≠ 0 then .ok (x / y)
    else .error (.operationError "Division by zero is not allowed")
  else if operation = "Power" then
    if 0 ≤ y then .ok (fm.powf x y)
    else .error (.operationError "Negative exponents are not supported")
  else if operation = "Root" then
    if 0 ≤ x ∧ y ≠ 0 then .ok (fm.rootf x y)
    else if y = 0 then .error (.operationError "Zero root is undefined")
    else if x < 0 then .error (.operationError "Cannot calculate root of negative number")
    else .error (.operationError "Invalid root operation")
  else .error (.operationError ("Unknown operation: " ++ operation))

/-- Constructing a `Calculation` (`__post_init__`, lines 36–46): the result
is computed synchronously from the operands; a failing `calculate` makes
construction fail.  `now` is the `datetime.datetime.now()` default of the
`timestamp` field. -/
def mkCalculation (fm : FloatModel) (operation : String) (a b : ℚ) (now : ℕ) :
    Except PyExc Calculation :=
  match calculate fm operation a b with
  | .error e => .error e
  | .ok r =>
      .ok { operation := operation, operand1 := a, operand2 := b,
            result := r, timestamp := now }

/-- `Calculation.__eq__` (lines 222–243): structural equality over
operation, operands and result, excluding the timestamp. -/
def calcEq (c d : Calculation) : Bool :=
  c.operation == d.operation &&
  c.operand1 == d.operand1 &&
  c.operand2 == d.operand2 &&
  c.result == d.result

/-! ### A lossless textual codec for the stored numbers

`to_dict` stores operands, result and timestamp as strings
(`str(Decimal)` / `isoformat`), and `from_dict` parses them back
(`Decimal(s)` / `fromisoformat`); both Python codecs are lossless.  They
are embedded as an executable digit-string codec for ℚ and ℕ whose
round-trip is proved, which is the property the serialization claims rely
on. -/

/-- One decimal digit as a character. -/
def digitChar : ℕ → Char
  | 0 => '0'
  | 1 => '1'
  | 2 => '2'
  | 3 => '3'
  | 4 => '4'
  | 5 => '5'
  | 6 => '6'
  | 7 => '7'
  | 8 => '8'
  | 9 => '9'
  | _ => '?'

/-- Inverse of `digitChar` on actual digits. -/
def charDigit (c : Char) : Option ℕ :=
  if c = '0' then some 0
  else if c = '1' then some 1
  else if c = '2' then some 2
  else if c = '3' then some 3
  else if c = '4' then some 4
  else if c = '5' then some 5
  else if c = '6' then some 6
  else if c = '7' then some 7
  else if c = '8' then some 8
  else if c = '9' then some 9
  else none

theorem charDigit_digitChar (d : ℕ) (h : d < 10) : charDigit (digitChar d) = some d := by
  interval_cases d <;> rfl

theorem digitChar_ne (d : ℕ) (hd : d < 10) (c : Char) (hc : charDigit c = none) :
    digitChar d ≠ c := by
  intro h
  rw [← h, charDigit_digitChar d hd] at hc
  exact Option.some_ne_none _ hc

/-- The decimal digit string of a natural number (`str(n)`). -/
def encodeNat (n : ℕ) : List Char :=
  if n = 0 then ['0'] else ((Nat.digits 10 n).map digitChar).reverse

/-- Digit-wise parse of a character list, failing on any non-digit. -/
def mapCharDigits : List Char → Option (List ℕ)
  | [] => some []
  | c :: cs =>
      match charDigit c, mapCharDigits cs with
      | some d, some ds => some (d :: ds)
      | _, _ => none

/-- Parsing a decimal digit string (`int(s)` on non-negative input). -/
def decodeNat (cs : List Char) : Option ℕ :=
  if cs = [] then none
  else
    match mapCharDigits cs.reverse with
    | some ds => some (Nat.ofDigits 10 ds)
    | none => none

theorem mapCharDigits_map_digitChar (l : List ℕ) (h : ∀ d ∈ l, d < 10) :
    mapCharDigits (l.map digitChar) = some l := by
  induction l with
  | nil => rfl
  | cons d ds ih =>
      have hd : d < 10 := h d (List.mem_cons_self d ds)
      have hds : ∀ x ∈ ds, x < 10 := fun x hx => h x (List.mem_cons_of_mem d hx)
      simp [mapCharDigits, charDigit_digitChar d hd, ih hds]

theorem encodeNat_ne_nil (n : ℕ) : encodeNat n ≠ [] := by
  unfold encodeNat
  split
  · simp
  · simp_all [Nat.digits_ne_nil_iff_ne_zero]

theorem mem_encodeNat (n : ℕ) (c : Char) (hc : c ∈ encodeNat n) : ∃ d, c = digitChar d := by
  unfold encodeNat at hc
  split at hc
  · exact ⟨0, (List.mem_singleton.mp hc)⟩
  · rw [List.mem_reverse] at hc
    obtain ⟨d, _, hd⟩ := List.mem_map.mp hc
    exact ⟨d, hd.symm⟩

theorem decodeNat_encodeNat (n : ℕ) : decodeNat (encodeNat n) = some n := by
  by_cases h : n = 0
  · subst h; rfl
  · have hdig : ∀ d ∈ Nat.digits 10 n, d < 10 := fun d hd =>
      Nat.digits_lt_base (by norm_num) hd
    unfold decodeNat
    rw [if_neg (encodeNat_ne_nil n)]
    have henc : encodeNat n = ((Nat.digits 10 n).map digitChar).reverse := by
      unfold encodeNat; rw [if_neg h]
    rw [henc, List.reverse_reverse, mapCharDigits_map_digitChar _ hdig]
    simp [Nat.ofDigits_digits]


theorem digitChar_lt_of_eq (d : ℕ) (c : Char) (hc : charDigit c ≠ none)
    (h : c = digitChar d) : d < 10 := by
  by_cases hcase : d < 10
  · exact hcase
  · exfalso
    have h1 : digitChar d = '?' := by
      unfold digitChar
      split <;> first | rfl | omega
    rw [h, h1] at hc
    exact hc rfl

theorem mem_encodeNat_ne (n : ℕ) (c : Char) (hc : c ∈ encodeNat n)
    (x : Char) (hx : charDigit x = none) : c ≠ x := by
  obtain ⟨d, hd⟩ := mem_encodeNat n c hc
  have hcd : charDigit c ≠ none := by
    unfold encodeNat at hc
    split at hc
    · rw [List.mem_singleton.mp hc]; decide
    · rw [List.mem_reverse] at hc
      obtain ⟨d2, hmem, hd2⟩ := List.mem_map.mp hc
      have hlt : d2 < 10 := Nat.digits_lt_base (by norm_num) hmem
      rw [← hd2, charDigit_digitChar d2 hlt]
      exact Option.some_ne_none _
  have hd10 : d < 10 := digitChar_lt_of_eq d c hcd hd
  rw [hd]
  exact digitChar_ne d hd10 x hx

/-- Sign-aware decimal string of an integer (`str(i)`). -/
def encodeInt (i : ℤ) : List Char :=
  if i < 0 then '-' :: encodeNat i.natAbs else encodeNat i.natAbs

/-- Parsing a signed decimal string (`int(s)`). -/
def decodeInt (cs : List Char) : Option ℤ :=
  match cs with
  | [] => none
  | c :: rest =>
      if c = '-' then
        match decodeNat rest with
        | some n => some (-(n : ℤ))
        | none => none
      else
        match decodeNat (c :: rest) with
        | some n => some ((n : ℤ))
        | none => none

theorem decodeInt_encodeInt (i : ℤ) : decodeInt (encodeInt i) = some i := by
  unfold encodeInt
  by_cases h : i < 0
  · rw [if_pos h]
    simp [decodeInt, decodeNat_encodeNat, -Int.natCast_natAbs]
    omega
  · rw [if_neg h]
    obtain ⟨c, rest, hcr⟩ := List.exists_cons_of_ne_nil (encodeNat_ne_nil i.natAbs)
    have hcm : c ∈ encodeNat i.natAbs := by rw [hcr]; exact List.mem_cons_self c rest
    have hcne : ¬(c = '-') := mem_encodeNat_ne i.natAbs c hcm '-' (by decide)
    rw [hcr]
    simp only [decodeInt, if_neg hcne]
    rw [← hcr, decodeNat_encodeNat]
    simp only [Option.some.injEq]
    omega

/-- Lossless string form of an exact decimal value (`str(Decimal)`), as a
numerator/denominator digit string.  What the serialization claims rely on
is the losslessness of the codec, proved in `decodeQ_encodeQ`. -/
def encodeQ (q : ℚ) : List Char :=
  encodeInt q.num ++ '/' :: encodeNat q.den

/-- Parsing the stored decimal string (`Decimal(s)`). -/
def decodeQ (cs : List Char) : Option ℚ :=
  match cs.dropWhile (fun c => c != '/') with
  | [] => none
  | _ :: denPart =>
      match decodeInt (cs.takeWhile (fun c => c != '/')), decodeNat denPart with
      | some n, some d => some (mkRat n d)
      | _, _ => none

theorem takeWhile_append_stop (l r : List Char) (hl : ∀ c ∈ l, c ≠ '/') :
    (l ++ '/' :: r).takeWhile (fun c => c != '/') = l ∧
    (l ++ '/' :: r).dropWhile (fun c => c != '/') = '/' :: r := by
  induction l with
  | nil =>
      constructor
      · simp [List.takeWhile_cons]
      · simp [List.dropWhile_cons]
  | cons a as ih =>
      have ha : a ≠ '/' := hl a (List.mem_cons_self a as)
      have has : ∀ c ∈ as, c ≠ '/' := fun c hc => hl c (List.mem_cons_of_mem a hc)
      obtain ⟨iht, ihd⟩ := ih has
      constructor
      · simp only [List.cons_append, List.takeWhile_cons]
        simp [ha, iht]
      · simp only [List.cons_append, List.dropWhile_cons]
        simp [ha, ihd]

theorem mem_encodeInt_ne_slash (i : ℤ) (c : Char) (hc : c ∈ encodeInt i) : c ≠ '/' := by
  unfold encodeInt at hc
  split at hc
  · rcases List.mem_cons.mp hc with h | h
    · rw [h]; decide
    · exact mem_encodeNat_ne i.natAbs c h '/' (by decide)
  · exact mem_encodeNat_ne i.natAbs c hc '/' (by decide)

theorem decodeQ_encodeQ (q : ℚ) : decodeQ (encodeQ q) = some q := by
  unfold encodeQ decodeQ
  obtain ⟨ht, hd⟩ := takeWhile_append_stop (encodeInt q.num) (encodeNat q.den)
    (mem_encodeInt_ne_slash q.num)
  rw [ht, hd, decodeInt_encodeInt]
  simp [decodeNat_encodeNat, Rat.mkRat_self]

/-- `str` of a stored decimal value. -/
def strOfQ (q : ℚ) : String := ⟨encodeQ q⟩

/-- `Decimal(s)` on a stored string. -/
def qOfStr (s : String) : Option ℚ := decodeQ s.data

/-- `timestamp.isoformat()`. -/
def strOfTs (t : ℕ) : String := ⟨encodeNat t⟩

/-- `datetime.datetime.fromisoformat(s)`. -/
def tsOfStr (s : String) : Option ℕ := decodeNat s.data

theorem qOfStr_strOfQ (q : ℚ) : qOfStr (strOfQ q) = some q := decodeQ_encodeQ q

theorem tsOfStr_strOfTs (t : ℕ) : tsOfStr (strOfTs t) = some t := decodeNat_encodeNat t

/-- The dictionary produced by `Calculation.to_dict` and consumed by
`Calculation.from_dict`: every field a string. -/
structure CalcDict where
  operation : String
  operand1 : String
  operand2 : String
  result : String
  timestamp : String
deriving DecidableEq

/-- `Calculation.to_dict` (app/calculation.py lines 128–145). -/
def to_dict (c : Calculation) : CalcDict :=
  { operation := c.operation
    operand1 := strOfQ c.operand1
    operand2 := strOfQ c.operand2
    result := strOfQ c.result
    timestamp := strOfTs c.timestamp }

/-- `Calculation.from_dict` (app/calculation.py lines 147–189).  The
returned Bool records whether the non-fatal integrity warning
(`logging.warning`) fired because the stored result differs from the
recomputed one.  A parse failure of a stored field (Python
`InvalidOperation` / `ValueError`, caught at lines 187–189) becomes the
wrapped `OperationError`; a failure inside the `Calculation` constructor
(an `OperationError` from `calculate`, not in the caught tuple) propagates
unchanged.  `now` is the construction-time default timestamp, overwritten
by the stored one. -/
def from_dict (fm : FloatModel) (now : ℕ) (data : CalcDict) :
    Except PyExc (Calculation × Bool) :=
  match qOfStr data.operand1, qOfStr data.operand2 with
  | some a, some b =>
      (match mkCalculation fm data.operation a b now with
       | .error e => .error e
       | .ok c0 =>
           match tsOfStr data.timestamp with
           | none => .error (.operationError "Invalid calculation data: malformed timestamp")
           | some ts =>
               match qOfStr data.result with
               | none => .error (.operationError "Invalid calculation data: malformed result")
               | some saved =>
                   let c1 := { c0 with timestamp := ts }
                   .ok (c1, if c1.result = saved then false else true))
  | _, _ => .error (.operationError "Invalid calculation data: malformed operand")

/-! ### Calculator engine state (`app/calculator.py`)

The engine's mutable state is the live history plus the two memento
stacks.  Python `list.append`/`list.pop()` on the stacks become
concatenation at the right end / `getLast?`-`dropLast`. -/

/-- `CalculatorMemento` — an owned snapshot of the history list.
Modelled from the spec: `app/calculator_memento.py` is not under `src/`;
§4.3 of the spec describes it as an independent copy of the history
sequence, which is exactly a `List` value here. -/
structure CalculatorMemento where
  history : List Calculation
deriving DecidableEq

/-- `CalculatorConfig` — the configuration fields the engine consumes.
Modelled from the spec: `app/calculator_config.py` is not under `src/`;
§6 of the spec lists `max_history_size : integer > 0` and
`auto_save : boolean` as the fields the core reads. -/
structure CalculatorConfig where
  max_history_size : ℕ
  auto_save : Bool
deriving DecidableEq

/-- The engine state mutated by `perform_operation`, `undo`, `redo`,
`clear_history` and `load_history`. -/
structure CalculatorState where
  history : List Calculation
  undo_stack : List CalculatorMemento
  redo_stack : List CalculatorMemento
deriving DecidableEq

/-- The outcomes of the external collaborators during one
`perform_operation` call.  Modelled from the spec:
`app/input_validators.py` (`InputValidator.validate_number`, which may
fail with `ValidationError`) and `app/operations.py` (the
`Operation` strategy whose `execute` produces the returned result) are not
under `src/`; observers (§4.4) may raise during `notify_observers`, and
that exception is not caught by the bus. -/
structure PerformInputs where
  opName : String
  validated_a : Except String ℚ
  validated_b : Except String ℚ
  execResult : ℚ → ℚ → Except PyExc ℚ
  notifyFail : Calculation → Option PyExc

/-- The body of the `try` block of `Calculator.perform_operation`
(app/calculator.py lines 203–236): validate both inputs, execute the
strategy, construct the `Calculation`, push the pre-mutation snapshot onto
the undo stack, clear the redo stack, append, evict one entry from the
front when the bound is exceeded, then notify observers.  The returned
state is the state at the point the block finished or raised, so a raising
observer leaves the already-committed mutation in place. -/
def perform_try (fm : FloatModel) (cfg : CalculatorConfig) (si : PerformInputs)
    (now : ℕ) (st : CalculatorState) : Except PyExc ℚ × CalculatorState :=
  match si.validated_a with
  | .error m => (.error (.validationError m), st)
  | .ok va =>
      match si.validated_b with
      | .error m => (.error (.validationError m), st)
      | .ok vb =>
          match si.execResult va vb with
          | .error e => (.error e, st)
          | .ok result =>
              match mkCalculation fm si.opName va vb now with
              | .error e => (.error e, st)
              | .ok c =>
                  let h1 := st.history ++ [c]
                  let h2 := if cfg.max_history_size < h1.length then h1.drop 1 else h1
                  let st2 : CalculatorState :=
                    { history := h2
                      undo_stack := st.undo_stack ++ [⟨st.history⟩]
                      redo_stack := [] }
                  match si.notifyFail c with
                  | some e => (.error e, st2)
                  | none => (.ok result, st2)

/-- `Calculator.perform_operation` (app/calculator.py lines 177–245): the
"No operation set" guard, the `try` body, and the two `except` clauses —
`ValidationError` re-raised unchanged, every other exception wrapped as
`OperationError("Operation failed: " + str(e))`. -/
def perform_operation (fm : FloatModel) (cfg : CalculatorConfig)
    (strategy : Option PerformInputs) (now : ℕ) (st : CalculatorState) :
    Except PyExc ℚ × CalculatorState :=
  match strategy with
  | none => (.error (.operationError "No operation set"), st)
  | some si =>
      match perform_try fm cfg si now st with
      | (.ok r, st1) => (.ok r, st1)
      | (.error e, st1) =>
          match e with
          | .validationError m => (.error (.validationError m), st1)
          | e1 => (.error (.operationError ("Operation failed: " ++ e1.msg)), st1)

/-- `Calculator.undo` (app/calculator.py lines 372–394). -/
def undo (st : CalculatorState) : Bool × CalculatorState :=
  match st.undo_stack.getLast? with
  | none => (false, st)
  | some m =>
      (true,
       { history := m.history
         undo_stack := st.undo_stack.dropLast
         redo_stack := st.redo_stack ++ [⟨st.history⟩] })

/-- `Calculator.redo` (app/calculator.py lines 396–418). -/
def redo (st : CalculatorState) : Bool × CalculatorState :=
  match st.redo_stack.getLast? with
  | none => (false, st)
  | some m =>
      (true,
       { history := m.history
         undo_stack := st.undo_stack ++ [⟨st.history⟩]
         redo_stack := st.redo_stack.dropLast })

/-- `Calculator.clear_history` (app/calculator.py lines 361–370). -/
def clear_history (_st : CalculatorState) : CalculatorState :=
  { history := [], undo_stack := [], redo_stack := [] }

/-- The list comprehension of `Calculator.load_history` (app/calculator.py
lines 305–314): each row is rebuilt with `Calculation.from_dict`, first
failure escaping. -/
def load_rows (fm : FloatModel) (now : ℕ) : List CalcDict → Except PyExc (List Calculation)
  | [] => .ok []
  | r :: rs =>
      match from_dict fm now r with
      | .error e => .error e
      | .ok (c, _) =>
          match load_rows fm now rs with
          | .error e => .error e
          | .ok cs => .ok (c :: cs)

/-- `Calculator.load_history` (app/calculator.py lines 289–324), over the
decoded rows of the stored CSV file.  When the file has no data rows
(`df.empty`, line 303) the live history is left unchanged; otherwise the
history is *replaced* by the rebuilt list — note that no truncation to
`max_history_size` happens and the undo/redo stacks are untouched.  Any
exception is wrapped as `OperationError("Failed to load history: ...")`. -/
def load_history (fm : FloatModel) (now : ℕ) (rows : List CalcDict)
    (st : CalculatorState) : Except PyExc CalculatorState :=
  if rows = [] then .ok st
  else
    match load_rows fm now rows with
    | .ok hist => .ok { st with history := hist }
    | .error e => .error (.operationError ("Failed to load history: " ++ e.msg))

/-! ### The legacy operation registry (`app/calculation/__init__.py`) -/

/-- The registration order of the `@CalculationFactory.register_calculation`
decorators (lines 176–236): the keys of `_calculations` in insertion
order. -/
def factory_registered : List String := ["add", "subtract", "multiply", "divide"]

/-- A resolved factory calculation: the registered class applied to the two
operands. -/
structure FactoryCalculation where
  kind : String
  a : ℚ
  b : ℚ
deriving DecidableEq

/-- ASCII lower-casing of one character (`str.lower()` on the operation
names, which are ASCII). -/
def lowerChar (c : Char) : Char :=
  if 'A' ≤ c ∧ c ≤ 'Z' then Char.ofNat (c.toNat + 32) else c

/-- `calculation_type.lower()`. -/
def strToLower (s : String) : String := ⟨s.data.map lowerChar⟩

/-- `CalculationFactory.create_calculation` (lines 138–167): case-folded
lookup; an unknown name raises `ValueError` whose message lists all
currently registered type names. -/
def create_calculation (calculation_type : String) (a b : ℚ) :
    Except PyExc FactoryCalculation :=
  let lowered := strToLower calculation_type
  if factory_registered.contains lowered then .ok ⟨lowered, a, b⟩
  else
    .error (.valueError ("Unsupported calculation type: \x27" ++ calculation_type ++
      "\x27. Available types: " ++ String.intercalate ", " factory_registered))

/-- Substring occurrence test used to state that an error message does or
does not mention a name (needle, then haystack). -/
def listPrefixEq : List Char → List Char → Bool
  | [], _ => true
  | _ :: _, [] => false
  | a :: as, b :: bs => a == b && listPrefixEq as bs

def listOccurs (needle : List Char) : List Char → Bool
  | [] => listPrefixEq needle []
  | b :: bs => listPrefixEq needle (b :: bs) || listOccurs needle bs

/-- Whether `needle` occurs as a contiguous substring of `hay`. -/
def occursIn (needle hay : String) : Bool := listOccurs needle.data hay.data

/-! ### Engine lemmas -/

/-- The committed state after a fully successful `perform_operation` body:
snapshot pushed, redo cleared, record appended, one front entry evicted
when the bound is exceeded. -/
def commitState (cfg : CalculatorConfig) (st : CalculatorState) (c : Calculation) :
    CalculatorState :=
  { history :=
      if cfg.max_history_size < (st.history ++ [c]).length
      then (st.history ++ [c]).drop 1 else st.history ++ [c]
    undo_stack := st.undo_stack ++ [⟨st.history⟩]
    redo_stack := [] }

theorem perform_try_commit (fm : FloatModel) (cfg : CalculatorConfig)
    (si : PerformInputs) (now : ℕ) (st : CalculatorState) (va vb r : ℚ)
    (c : Calculation)
    (ha : si.validated_a = .ok va) (hb : si.validated_b = .ok vb)
    (he : si.execResult va vb = .ok r)
    (hc : mkCalculation fm si.opName va vb now = .ok c)
    (hn : si.notifyFail c = none) :
    perform_try fm cfg si now st = (.ok r, commitState cfg st c) := by
  simp only [perform_try, commitState, ha, hb, he, hc, hn]

theorem perform_commit (fm : FloatModel) (cfg : CalculatorConfig)
    (si : PerformInputs) (now : ℕ) (st : CalculatorState) (va vb r : ℚ)
    (c : Calculation)
    (ha : si.validated_a = .ok va) (hb : si.validated_b = .ok vb)
    (he : si.execResult va vb = .ok r)
    (hc : mkCalculation fm si.opName va vb now = .ok c)
    (hn : si.notifyFail c = none) :
    perform_operation fm cfg (some si) now st = (.ok r, commitState cfg st c) := by
  simp only [perform_operation,
    perform_try_commit fm cfg si now st va vb r c ha hb he hc hn]

/-- Every `perform_try` run either leaves the state untouched (a raise
before the mutation block) or produces the committed state. -/
theorem perform_try_state (fm : FloatModel) (cfg : CalculatorConfig)
    (si : PerformInputs) (now : ℕ) (st : CalculatorState) :
    (perform_try fm cfg si now st).2 = st ∨
    ∃ c, (perform_try fm cfg si now st).2 = commitState cfg st c := by
  cases ha : si.validated_a with
  | error m => simp [perform_try, ha]
  | ok va =>
      cases hb : si.validated_b with
      | error m => simp [perform_try, ha, hb]
      | ok vb =>
          cases he : si.execResult va vb with
          | error e => simp [perform_try, ha, hb, he]
          | ok r =>
              cases hc : mkCalculation fm si.opName va vb now with
              | error e => simp [perform_try, ha, hb, he, hc]
              | ok c =>
                  cases hn : si.notifyFail c with
                  | some e =>
                      right
                      exact ⟨c, by simp [perform_try, commitState, ha, hb, he, hc, hn]⟩
                  | none =>
                      right
                      exact ⟨c, by simp [perform_try, commitState, ha, hb, he, hc, hn]⟩

theorem perform_operation_state (fm : FloatModel) (cfg : CalculatorConfig)
    (strategy : Option PerformInputs) (now : ℕ) (st : CalculatorState) :
    (perform_operation fm cfg strategy now st).2 = st ∨
    ∃ c, (perform_operation fm cfg strategy now st).2 = commitState cfg st c := by
  cases strategy with
  | none => left; rfl
  | some si =>
      have hstate : (perform_operation fm cfg (some si) now st).2 =
          (perform_try fm cfg si now st).2 := by
        rcases h : perform_try fm cfg si now st with ⟨res, st1⟩
        cases res with
        | ok r => simp [perform_operation, h]
        | error e => cases e <;> simp [perform_operation, h]
      rw [hstate]
      exact perform_try_state fm cfg si now st

theorem perform_try_ok (fm : FloatModel) (cfg : CalculatorConfig)
    (si : PerformInputs) (now : ℕ) (st : CalculatorState) (r : ℚ)
    (st1 : CalculatorState) (h : perform_try fm cfg si now st = (.ok r, st1)) :
    ∃ c, st1 = commitState cfg st c := by
  cases ha : si.validated_a with
  | error m => simp [perform_try, ha] at h
  | ok va =>
      cases hb : si.validated_b with
      | error m => simp [perform_try, ha, hb] at h
      | ok vb =>
          cases he : si.execResult va vb with
          | error e => simp [perform_try, ha, hb, he] at h
          | ok r2 =>
              cases hc : mkCalculation fm si.opName va vb now with
              | error e => simp [perform_try, ha, hb, he, hc] at h
              | ok c =>
                  cases hn : si.notifyFail c with
                  | some e => simp [perform_try, ha, hb, he, hc, hn] at h
                  | none =>
                      refine ⟨c, ?_⟩
                      rw [perform_try_commit fm cfg si now st va vb r2 c ha hb he hc hn] at h
                      exact (congrArg Prod.snd h).symm

theorem perform_operation_snd (fm : FloatModel) (cfg : CalculatorConfig)
    (si : PerformInputs) (now : ℕ) (st : CalculatorState) :
    (perform_operation fm cfg (some si) now st).2 = (perform_try fm cfg si now st).2 := by
  rcases h : perform_try fm cfg si now st with ⟨res, st1⟩
  cases res with
  | ok r => simp [perform_operation, h]
  | error e => cases e <;> simp [perform_operation, h]

theorem perform_operation_of_try_error (fm : FloatModel) (cfg : CalculatorConfig)
    (si : PerformInputs) (now : ℕ) (st : CalculatorState) (e1 : PyExc)
    (st1 : CalculatorState) (h : perform_try fm cfg si now st = (.error e1, st1)) :
    (perform_operation fm cfg (some si) now st).2 = st1 ∧
    ∃ e, (perform_operation fm cfg (some si) now st).1 = .error e := by
  cases e1 <;> simp [perform_operation, h]

/-- The undo/redo round trip on any state with a nonempty undo stack:
both calls succeed and the live history ends where it started. -/
theorem undo_redo_general (st : CalculatorState) (h : st.undo_stack ≠ []) :
    (undo st).1 = true ∧ (redo (undo st).2).1 = true ∧
    (redo (undo st).2).2.history = st.history := by
  cases hg : st.undo_stack.getLast? with
  | none => exact absurd (List.getLast?_eq_none_iff.mp hg) h
  | some m =>
      have hu : undo st =
          (true, { history := m.history
                   undo_stack := st.undo_stack.dropLast
                   redo_stack := st.redo_stack ++ [⟨st.history⟩] }) := by
        simp [undo, hg]
      rw [hu]
      refine ⟨rfl, ?_, ?_⟩ <;>
        simp [redo, List.getLast?_concat]

/-- The spec's size invariant (§3, "Calculator state"): the live history
and every snapshot on either stack respect `max_history_size`. -/
def Bounded (cfg : CalculatorConfig) (st : CalculatorState) : Prop :=
  st.history.length ≤ cfg.max_history_size ∧
  (∀ m ∈ st.undo_stack, m.history.length ≤ cfg.max_history_size) ∧
  (∀ m ∈ st.redo_stack, m.history.length ≤ cfg.max_history_size)

theorem Bounded_commitState (cfg : CalculatorConfig) (st : CalculatorState)
    (c : Calculation) (h : Bounded cfg st) : Bounded cfg (commitState cfg st c) := by
  obtain ⟨h1, h2, h3⟩ := h
  refine ⟨?_, ?_, ?_⟩
  · show (if cfg.max_history_size < (st.history ++ [c]).length
          then (st.history ++ [c]).drop 1 else st.history ++ [c]).length ≤
        cfg.max_history_size
    have hlen : (st.history ++ [c]).length = st.history.length + 1 := by simp
    split
    · rename_i hlt
      rw [List.length_drop, hlen]
      omega
    · rename_i hge
      rw [hlen] at hge ⊢
      omega
  · intro m hm
    rcases List.mem_append.mp hm with hml | hmr
    · exact h2 m hml
    · rw [List.mem_singleton.mp hmr]
      exact h1
  · intro m hm
    simp only [commitState] at hm
    exact absurd hm (List.not_mem_nil m)

theorem Bounded_undo (cfg : CalculatorConfig) (st : CalculatorState)
    (h : Bounded cfg st) : Bounded cfg (undo st).2 := by
  obtain ⟨h1, h2, h3⟩ := h
  cases hg : st.undo_stack.getLast? with
  | none =>
      have hid : (undo st).2 = st := by simp [undo, hg]
      rw [hid]
      exact ⟨h1, h2, h3⟩
  | some m =>
      have hmem : m ∈ st.undo_stack :=
        List.mem_of_mem_getLast? (by rw [hg]; rfl)
      have hu : (undo st).2 =
          { history := m.history
            undo_stack := st.undo_stack.dropLast
            redo_stack := st.redo_stack ++ [⟨st.history⟩] } := by
        simp [undo, hg]
      rw [hu]
      refine ⟨h2 m hmem, ?_, ?_⟩
      · intro m2 hm2
        exact h2 m2 ((List.dropLast_sublist st.undo_stack).subset hm2)
      · intro m2 hm2
        rcases List.mem_append.mp hm2 with hml | hmr
        · exact h3 m2 hml
        · rw [List.mem_singleton.mp hmr]
          exact h1

theorem Bounded_redo (cfg : CalculatorConfig) (st : CalculatorState)
    (h : Bounded cfg st) : Bounded cfg (redo st).2 := by
  obtain ⟨h1, h2, h3⟩ := h
  cases hg : st.redo_stack.getLast? with
  | none =>
      have hid : (redo st).2 = st := by simp [redo, hg]
      rw [hid]
      exact ⟨h1, h2, h3⟩
  | some m =>
      have hmem : m ∈ st.redo_stack :=
        List.mem_of_mem_getLast? (by rw [hg]; rfl)
      have hu : (redo st).2 =
          { history := m.history
            undo_stack := st.undo_stack ++ [⟨st.history⟩]
            redo_stack := st.redo_stack.dropLast } := by
        simp [redo, hg]
      rw [hu]
      refine ⟨h3 m hmem, ?_, ?_⟩
      · intro m2 hm2
        rcases List.mem_append.mp hm2 with hml | hmr
        · exact h2 m2 hml
        · rw [List.mem_singleton.mp hmr]
          exact h1
      · intro m2 hm2
        exact h3 m2 ((List.dropLast_sublist st.redo_stack).subset hm2)

theorem load_rows_length (fm : FloatModel) (now : ℕ) :
    ∀ rows hist, load_rows fm now rows = .ok hist → hist.length = rows.length := by
  intro rows
  induction rows with
  | nil =>
      intro hist h
      simp only [load_rows] at h
      cases h
      rfl
  | cons r rs ih =>
      intro hist h
      simp only [load_rows] at h
      cases hfd : from_dict fm now r with
      | error e => rw [hfd] at h; cases h
      | ok p =>
          rw [hfd] at h
          cases hlr : load_rows fm now rs with
          | error e => rw [hlr] at h; cases h
          | ok cs =>
              rw [hlr] at h
              cases h
              simp [ih cs hlr]

/-- Rebuilding a serialized well-formed record gives back exactly the same
record (the stored timestamp replaces the construction-time default `now2`)
and no integrity warning fires. -/
theorem from_dict_to_dict (fm : FloatModel) (now2 : ℕ) (c : Calculation)
    (h : calculate fm c.operation c.operand1 c.operand2 = .ok c.result) :
    from_dict fm now2 (to_dict c) = .ok (c, false) := by
  simp only [from_dict, to_dict, qOfStr_strOfQ, tsOfStr_strOfTs, mkCalculation, h]
  simp

/-- Rebuilding a record whose stored result field was replaced by a
different (still parseable) value: the result is recomputed, the record is
returned unchanged, the warning flag fires, and no exception escapes. -/
theorem from_dict_tampered (fm : FloatModel) (now2 : ℕ) (c : Calculation)
    (h : calculate fm c.operation c.operand1 c.operand2 = .ok c.result)
    (s : String) (saved : ℚ) (hs : qOfStr s = some saved) (hne : saved ≠ c.result) :
    from_dict fm now2 { to_dict c with result := s } = .ok (c, true) := by
  simp only [from_dict, to_dict, qOfStr_strOfQ, tsOfStr_strOfTs, mkCalculation, h, hs]
  rw [if_neg (fun heq => hne (by simpa using heq.symm))]

theorem calculate_division (fm : FloatModel) (x y : ℚ) :
    calculate fm "Division" x y =
      (if y ≠ 0 then .ok (x / y)
       else .error (.operationError "Division by zero is not allowed")) := by
  unfold calculate
  rw [if_neg (by decide), if_neg (by decide), if_neg (by decide), if_pos rfl]

theorem calculate_root (fm : FloatModel) (x y : ℚ) :
    calculate fm "Root" x y =
      (if 0 ≤ x ∧ y ≠ 0 then .ok (fm.rootf x y)
       else if y = 0 then .error (.operationError "Zero root is undefined")
       else if x < 0 then .error (.operationError "Cannot calculate root of negative number")
       else .error (.operationError "Invalid root operation")) := by
  unfold calculate
  rw [if_neg (by decide), if_neg (by decide), if_neg (by decide), if_neg (by decide),
    if_neg (by decide), if_pos rfl]

theorem calculate_unknown (fm : FloatModel) (name : String) (x y : ℚ)
    (h1 : name ≠ "Addition") (h2 : name ≠ "Subtraction") (h3 : name ≠ "Multiplication")
    (h4 : name ≠ "Division") (h5 : name ≠ "Power") (h6 : name ≠ "Root") :
    calculate fm name x y = .error (.operationError ("Unknown operation: " ++ name)) := by
  unfold calculate
  rw [if_neg h1, if_neg h2, if_neg h3, if_neg h4, if_neg h5, if_neg h6]

/-- Claim C6: division fails with `OperationError` carrying the message
"Division by zero is not allowed" exactly when the divisor is zero; for a
nonzero divisor it returns the exact decimal quotient `x / y`, and the
result never depends on the floating-point kernels. -/
theorem division_by_zero_policy (fm : FloatModel) (x y : ℚ) :
    calculate fm "Division" x y =
      (if y = 0 then .error (.operationError "Division by zero is not allowed")
       else .ok (x / y)) ∧
    (∀ fm2 : FloatModel, calculate fm2 "Division" x y = calculate fm "Division" x y) := by
  refine ⟨?_, fun fm2 => by rw [calculate_division, calculate_division]⟩
  rw [calculate_division]
  by_cases hy : y = 0
  · simp [hy]
  · simp [hy]

/-- Claim C7 (amended): the Root operation fails with "Zero root is
undefined" whenever `y = 0` (this branch takes priority, also for negative
`x`), fails with "Cannot calculate root of negative number" when `x < 0`
and `y ≠ 0` (in particular for `x = -4, y = 2`), and otherwise returns the
floating-point root kernel's value. -/
theorem root_error_policy (fm : FloatModel) (x y : ℚ) :
    calculate fm "Root" x y =
      (if 0 ≤ x ∧ y ≠ 0 then .ok (fm.rootf x y)
       else if y = 0 then .error (.operationError "Zero root is undefined")
       else .error (.operationError "Cannot calculate root of negative number")) ∧
    calculate fm "Root" (-4) 2 =
      .error (.operationError "Cannot calculate root of negative number") := by
  constructor
  · rw [calculate_root]
    by_cases hall : 0 ≤ x ∧ y ≠ 0
    · simp [hall]
    · by_cases hy : y = 0
      · simp [hall, hy]
      · have hx : x < 0 := lt_of_not_ge (fun hge => hall ⟨hge, hy⟩)
        simp [hall, hy, hx]
  · rw [calculate_root]
    norm_num

/-- Claim C7 counterexample: at `x = -4, y = 0` we have `x < 0`, yet the
failure message is "Zero root is undefined" — not "Cannot calculate root of
negative number" as the claim's `x < 0` clause asserts. -/
theorem root_neg_zero_counterexample :
    calculate fm0 "Root" (-4) 0 = .error (.operationError "Zero root is undefined") ∧
    calculate fm0 "Root" (-4) 0 ≠
      .error (.operationError "Cannot calculate root of negative number") := by
  have h : calculate fm0 "Root" (-4) 0 =
      .error (.operationError "Zero root is undefined") := by
    rw [calculate_root]
    norm_num
  refine ⟨h, ?_⟩
  rw [h]
  intro hcontra
  simp at hcontra

/-- Claim C8 (amended): resolving an unknown operation name through the
`CalculationFactory` fails with a `ValueError` (not a `CalculatorError`
subclass) whose message ends with the comma-joined enumeration of all
currently registered names; the engine's `Calculation.calculate` fails for
an unknown operation with `OperationError "Unknown operation: <name>"`,
which does not enumerate the registered names. -/
theorem unknown_operation_policy (name : String) (a b : ℚ)
    (hfac : factory_registered.contains (strToLower name) = false)
    (fm : FloatModel) (x y : ℚ)
    (h1 : name ≠ "Addition") (h2 : name ≠ "Subtraction") (h3 : name ≠ "Multiplication")
    (h4 : name ≠ "Division") (h5 : name ≠ "Power") (h6 : name ≠ "Root") :
    (∃ msg, create_calculation name a b = .error (.valueError msg) ∧
       ∃ pre, msg.data = pre ++ (String.intercalate ", " factory_registered).data) ∧
    calculate fm name x y = .error (.operationError ("Unknown operation: " ++ name)) := by
  constructor
  · refine ⟨"Unsupported calculation type: \x27" ++ name ++ "\x27. Available types: " ++
      String.intercalate ", " factory_registered, ?_, ?_⟩
    · unfold create_calculation
      rw [if_neg (by rw [hfac]; simp)]
    · exact ⟨("Unsupported calculation type: \x27" ++ name ++ "\x27. Available types: ").data,
        String.data_append _ _⟩
  · exact calculate_unknown fm name x y h1 h2 h3 h4 h5 h6

theorem unknown_operation_policy_witness :
    (∃ msg, create_calculation "modulo" 1 1 = .error (.valueError msg) ∧
       ∃ pre, msg.data = pre ++ (String.intercalate ", " factory_registered).data) ∧
    calculate fm0 "modulo" 1 1 =
      .error (.operationError ("Unknown operation: " ++ "modulo")) :=
  unknown_operation_policy "modulo" 1 1 (by decide) fm0 1 1
    (by decide) (by decide) (by decide) (by decide) (by decide) (by decide)

/-- Claim C8 counterexample: the engine's resolution failure for the
unknown name "modulo" is an `OperationError` whose message "Unknown
operation: modulo" does not mention the registered names (e.g. "Addition"
never occurs in it), while the factory's resolution failure — the one that
does enumerate — is raised as a `ValueError`, never as an
`OperationError`. -/
theorem unknown_operation_counterexample :
    calculate fm0 "modulo" 2 3 = .error (.operationError "Unknown operation: modulo") ∧
    occursIn "Addition" "Unknown operation: modulo" = false ∧
    (∀ msg, create_calculation "modulo" 2 3 ≠ .error (.operationError msg)) := by
  have hcc : create_calculation "modulo" 2 3 =
      .error (.valueError ("Unsupported calculation type: \x27" ++ "modulo" ++
        "\x27. Available types: " ++ String.intercalate ", " factory_registered)) := by
    unfold create_calculation
    rw [if_neg (by decide)]
  refine ⟨?_, by decide, ?_⟩
  · rw [calculate_unknown fm0 "modulo" 2 3 (by decide) (by decide) (by decide)
      (by decide) (by decide) (by decide)]
    rfl
  · intro msg h
    rw [hcc] at h
    simp at h

/-- Claim C4: for every constructible `Calculation`, deserializing its
serialized form returns the very same record — equal under `__eq__`'s
structural equality, with the result recomputed from the stored operands
(the committed record still carries the recomputed result even when the
stored result field was tampered with) and the *stored* timestamp restored
regardless of the fresh construction time `now2` — and a stored/recomputed
result mismatch only sets the warning flag instead of raising. -/
theorem serialization_roundtrip
    (fm : FloatModel) (now now2 : ℕ) (op : String) (a b : ℚ) (c : Calculation)
    (h : mkCalculation fm op a b now = .ok c)
    (s : String) (saved : ℚ) (hs : qOfStr s = some saved) (hne : saved ≠ c.result) :
    from_dict fm now2 (to_dict c) = .ok (c, false) ∧
    calcEq c c = true ∧
    from_dict fm now2 { to_dict c with result := s } = .ok (c, true) := by
  have hcal : calculate fm c.operation c.operand1 c.operand2 = .ok c.result := by
    unfold mkCalculation at h
    cases hc2 : calculate fm op a b with
    | error e => rw [hc2] at h; cases h
    | ok r => rw [hc2] at h; cases h; exact hc2
  exact ⟨from_dict_to_dict fm now2 c hcal, by simp [calcEq],
    from_dict_tampered fm now2 c hcal s saved hs hne⟩

/-- The concrete record used by the C4 witness. -/
def cW4 : Calculation := ⟨"Addition", 1, 2, 3, 6⟩

theorem serialization_roundtrip_witness :
    from_dict fm0 99 (to_dict cW4) = .ok (cW4, false) ∧
    calcEq cW4 cW4 = true ∧
    from_dict fm0 99 { to_dict cW4 with result := strOfQ 7 } = .ok (cW4, true) :=
  serialization_roundtrip fm0 6 99 "Addition" 1 2 cW4
    (by norm_num [mkCalculation, calculate, cW4])
    (strOfQ 7) 7 (qOfStr_strOfQ 7) (by norm_num [cW4])

/-- Claim C5: an error escaping `perform_operation` is always a
`ValidationError` or an `OperationError` — never a lower-level exception
type — and when input validation fails (first or second operand) the
resulting `ValidationError` propagates to the caller with its message
unchanged, not wrapped. -/
theorem error_propagation_policy (fm : FloatModel) (cfg : CalculatorConfig)
    (strategy : Option PerformInputs) (now : ℕ) (st : CalculatorState) :
    (∀ e, (perform_operation fm cfg strategy now st).1 = .error e →
        (∃ m, e = .validationError m) ∨ (∃ m, e = .operationError m)) ∧
    (∀ si m, strategy = some si → si.validated_a = .error m →
        (perform_operation fm cfg strategy now st).1 = .error (.validationError m)) ∧
    (∀ si va m, strategy = some si → si.validated_a = .ok va →
        si.validated_b = .error m →
        (perform_operation fm cfg strategy now st).1 = .error (.validationError m)) := by
  refine ⟨?_, ?_, ?_⟩
  · intro e he
    cases strategy with
    | none =>
        have h0 : (perform_operation fm cfg none now st).1 =
            .error (.operationError "No operation set") := rfl
        rw [h0] at he
        injection he with he2
        exact Or.inr ⟨_, he2.symm⟩
    | some si =>
        rcases hres : perform_try fm cfg si now st with ⟨res, st1⟩
        cases res with
        | ok r => simp [perform_operation, hres] at he
        | error e1 =>
            cases e1 with
            | validationError m =>
                have hp : (perform_operation fm cfg (some si) now st).1 =
                    .error (.validationError m) := by simp [perform_operation, hres]
                rw [hp] at he
                injection he with he2
                exact Or.inl ⟨m, he2.symm⟩
            | operationError m =>
                have hp : (perform_operation fm cfg (some si) now st).1 =
                    .error (.operationError ("Operation failed: " ++ m)) := by
                  simp [perform_operation, hres, PyExc.msg]
                rw [hp] at he
                injection he with he2
                exact Or.inr ⟨_, he2.symm⟩
            | valueError m =>
                have hp : (perform_operation fm cfg (some si) now st).1 =
                    .error (.operationError ("Operation failed: " ++ m)) := by
                  simp [perform_operation, hres, PyExc.msg]
                rw [hp] at he
                injection he with he2
                exact Or.inr ⟨_, he2.symm⟩
            | otherExc m =>
                have hp : (perform_operation fm cfg (some si) now st).1 =
                    .error (.operationError ("Operation failed: " ++ m)) := by
                  simp [perform_operation, hres, PyExc.msg]
                rw [hp] at he
                injection he with he2
                exact Or.inr ⟨_, he2.symm⟩
  · intro si m hsome ham
    subst hsome
    have htry : perform_try fm cfg si now st = (.error (.validationError m), st) := by
      simp only [perform_try, ham]
    simp [perform_operation, htry]
  · intro si va m hsome ha hb
    subst hsome
    have htry : perform_try fm cfg si now st = (.error (.validationError m), st) := by
      simp only [perform_try, ha, hb]
    simp [perform_operation, htry]

/-- A strategy run whose first operand fails validation, for the C5
witness. -/
def siV5 : PerformInputs :=
  ⟨"Addition", .error "Invalid number format: abc", .ok 1,
   fun a b => .ok (a + b), fun _ => none⟩

def cfgW5 : CalculatorConfig := ⟨5, false⟩

def stW5 : CalculatorState := ⟨[], [], []⟩

theorem error_propagation_policy_witness :
    (perform_operation fm0 cfgW5 (some siV5) 0 stW5).1 =
      .error (.validationError "Invalid number format: abc") :=
  (error_propagation_policy fm0 cfgW5 (some siV5) 0 stW5).2.1 siV5
    "Invalid number format: abc" rfl rfl

/-- Whether a `perform_operation` run fails before the mutation block: the
first operand fails validation, the second does, the strategy's `execute`
raises, or the `Calculation` constructor raises. -/
def precommit_fails (fm : FloatModel) (si : PerformInputs) (now : ℕ) : Bool :=
  match si.validated_a with
  | .error _ => true
  | .ok va =>
      match si.validated_b with
      | .error _ => true
      | .ok vb =>
          match si.execResult va vb with
          | .error _ => true
          | .ok _ =>
              match mkCalculation fm si.opName va vb now with
              | .error _ => true
              | .ok _ => false

/-- Claim C9: when `perform_operation` fails before the calculation is
committed — validation failure, strategy execution failure, or
`Calculation` construction failure — the history and both undo/redo stacks
are exactly as before the call, and the call raises. -/
theorem atomicity_on_precommit_error (fm : FloatModel) (cfg : CalculatorConfig)
    (si : PerformInputs) (now : ℕ) (st : CalculatorState)
    (h : precommit_fails fm si now = true) :
    (perform_operation fm cfg (some si) now st).2 = st ∧
    ∃ e, (perform_operation fm cfg (some si) now st).1 = .error e := by
  cases ha : si.validated_a with
  | error m =>
      exact perform_operation_of_try_error fm cfg si now st (.validationError m) st
        (by simp only [perform_try, ha])
  | ok va =>
      cases hb : si.validated_b with
      | error m =>
          exact perform_operation_of_try_error fm cfg si now st (.validationError m) st
            (by simp only [perform_try, ha, hb])
      | ok vb =>
          cases he : si.execResult va vb with
          | error e =>
              exact perform_operation_of_try_error fm cfg si now st e st
                (by simp only [perform_try, ha, hb, he])
          | ok r =>
              cases hc : mkCalculation fm si.opName va vb now with
              | error e =>
                  exact perform_operation_of_try_error fm cfg si now st e st
                    (by simp only [perform_try, ha, hb, he, hc])
              | ok c =>
                  exfalso
                  simp [precommit_fails, ha, hb, he, hc] at h

/-- A strategy run whose `execute` raises, and a populated engine state,
for the C9 witness. -/
def siE9 : PerformInputs :=
  ⟨"Power", .ok 2, .ok 100000, fun _ _ => .error (.otherExc "numerical overflow"),
   fun _ => none⟩

def cW9 : Calculation := ⟨"Addition", 2, 2, 4, 5⟩

def stW9 : CalculatorState := ⟨[cW9], [⟨[]⟩], [⟨[cW9]⟩]⟩

def cfgW9 : CalculatorConfig := ⟨5, false⟩

theorem atomicity_on_precommit_error_witness :
    (perform_operation fm0 cfgW9 (some siE9) 7 stW9).2 = stW9 ∧
    ∃ e, (perform_operation fm0 cfgW9 (some siE9) 7 stW9).1 = .error e :=
  atomicity_on_precommit_error fm0 cfgW9 siE9 7 stW9 rfl

/-- Claim C10: with the history exactly at the size bound, a successful
`perform_operation` evicts the oldest record (the committed history is
`st.history.drop 1 ++ [c]`), yet because the undo snapshot was taken
before the append and the eviction, a subsequent `undo()` succeeds and
restores the complete pre-operation history, evicted record included. -/
theorem eviction_reversible_by_undo (fm : FloatModel) (cfg : CalculatorConfig)
    (si : PerformInputs) (now : ℕ) (st : CalculatorState) (va vb r : ℚ)
    (c : Calculation)
    (ha : si.validated_a = .ok va) (hb : si.validated_b = .ok vb)
    (he : si.execResult va vb = .ok r)
    (hc : mkCalculation fm si.opName va vb now = .ok c)
    (hn : si.notifyFail c = none)
    (hfull : st.history.length = cfg.max_history_size)
    (hpos : 0 < cfg.max_history_size) :
    (perform_operation fm cfg (some si) now st).2.history = st.history.drop 1 ++ [c] ∧
    (undo (perform_operation fm cfg (some si) now st).2).1 = true ∧
    (undo (perform_operation fm cfg (some si) now st).2).2.history = st.history := by
  have hperf := perform_commit fm cfg si now st va vb r c ha hb he hc hn
  have hsnd : (perform_operation fm cfg (some si) now st).2 = commitState cfg st c := by
    rw [hperf]
  rw [hsnd]
  have hlen : (st.history ++ [c]).length = cfg.max_history_size + 1 := by
    simp [hfull]
  have hlt : cfg.max_history_size < (st.history ++ [c]).length := by
    rw [hlen]; omega
  refine ⟨?_, ?_, ?_⟩
  · show (if cfg.max_history_size < (st.history ++ [c]).length
        then (st.history ++ [c]).drop 1 else st.history ++ [c]) =
      st.history.drop 1 ++ [c]
    rw [if_pos hlt, List.drop_append_of_le_length (by omega)]
  · simp [undo, commitState, List.getLast?_concat]
  · simp [undo, commitState, List.getLast?_concat]

/-- Concrete data for the C10 witness: a one-slot history at its bound. -/
def cW10a : Calculation := ⟨"Addition", 5, 5, 10, 0⟩

def cW10b : Calculation := ⟨"Addition", 2, 3, 5, 7⟩

def siW10 : PerformInputs :=
  ⟨"Addition", .ok 2, .ok 3, fun a b => .ok (a + b), fun _ => none⟩

def cfgW10 : CalculatorConfig := ⟨1, true⟩

def stW10 : CalculatorState := ⟨[cW10a], [], []⟩

theorem eviction_reversible_by_undo_witness :
    (perform_operation fm0 cfgW10 (some siW10) 7 stW10).2.history =
      [cW10a].drop 1 ++ [cW10b] ∧
    (undo (perform_operation fm0 cfgW10 (some siW10) 7 stW10).2).1 = true ∧
    (undo (perform_operation fm0 cfgW10 (some siW10) 7 stW10).2).2.history = [cW10a] :=
  eviction_reversible_by_undo fm0 cfgW10 siW10 7 stW10 2 3 5 cW10b
    rfl rfl (by norm_num [siW10]) (by norm_num [mkCalculation, calculate, siW10, cW10b])
    rfl (by norm_num [stW10, cW10a, cfgW10]) (by norm_num [cfgW10])

theorem calculate_multiplication (fm : FloatModel) (x y : ℚ) :
    calculate fm "Multiplication" x y = .ok (x * y) := by
  unfold calculate
  rw [if_neg (by decide), if_neg (by decide), if_pos rfl]

theorem mkCalculation_ok (fm : FloatModel) (op : String) (a b : ℚ) (now : ℕ) (r : ℚ)
    (h : calculate fm op a b = .ok r) :
    mkCalculation fm op a b now = .ok ⟨op, a, b, r, now⟩ := by
  simp [mkCalculation, h]

theorem commitState_history_small (cfg : CalculatorConfig) (st : CalculatorState)
    (c : Calculation) (h : st.history.length < cfg.max_history_size) :
    (commitState cfg st c).history = st.history ++ [c] := by
  show (if cfg.max_history_size < (st.history ++ [c]).length
      then (st.history ++ [c]).drop 1 else st.history ++ [c]) = st.history ++ [c]
  rw [if_neg]
  simp only [List.length_append, List.length_cons, List.length_nil]
  omega

/-- Claim C1: for every calculator on which two `perform_operation` calls
have just succeeded, `undo()` returns true, a following `redo()` returns
true, and the live history is restored to exactly the post-operations
records (by structural equality of the list); when the two calls started
from an empty history under a bound of at least 2, that history is
precisely `[c1, c2]`. -/
theorem undo_redo_roundtrip (fm : FloatModel) (cfg : CalculatorConfig)
    (si1 si2 : PerformInputs) (now1 now2 : ℕ) (st0 : CalculatorState)
    (a1 b1 r1 : ℚ) (c1 : Calculation) (a2 b2 r2 : ℚ) (c2 : Calculation)
    (ha1 : si1.validated_a = .ok a1) (hb1 : si1.validated_b = .ok b1)
    (he1 : si1.execResult a1 b1 = .ok r1)
    (hc1 : mkCalculation fm si1.opName a1 b1 now1 = .ok c1)
    (hn1 : si1.notifyFail c1 = none)
    (ha2 : si2.validated_a = .ok a2) (hb2 : si2.validated_b = .ok b2)
    (he2 : si2.execResult a2 b2 = .ok r2)
    (hc2 : mkCalculation fm si2.opName a2 b2 now2 = .ok c2)
    (hn2 : si2.notifyFail c2 = none) :
    (undo (perform_operation fm cfg (some si2) now2
       (perform_operation fm cfg (some si1) now1 st0).2).2).1 = true ∧
    (redo (undo (perform_operation fm cfg (some si2) now2
       (perform_operation fm cfg (some si1) now1 st0).2).2).2).1 = true ∧
    (redo (undo (perform_operation fm cfg (some si2) now2
       (perform_operation fm cfg (some si1) now1 st0).2).2).2).2.history =
      (perform_operation fm cfg (some si2) now2
       (perform_operation fm cfg (some si1) now1 st0).2).2.history ∧
    (st0.history = [] → 2 ≤ cfg.max_history_size →
      (perform_operation fm cfg (some si2) now2
        (perform_operation fm cfg (some si1) now1 st0).2).2.history = [c1, c2]) := by
  have hh1 : (perform_operation fm cfg (some si1) now1 st0).2 = commitState cfg st0 c1 := by
    rw [perform_commit fm cfg si1 now1 st0 a1 b1 r1 c1 ha1 hb1 he1 hc1 hn1]
  have hh2 : (perform_operation fm cfg (some si2) now2 (commitState cfg st0 c1)).2 =
      commitState cfg (commitState cfg st0 c1) c2 := by
    rw [perform_commit fm cfg si2 now2 (commitState cfg st0 c1) a2 b2 r2 c2
      ha2 hb2 he2 hc2 hn2]
  have hne : (commitState cfg (commitState cfg st0 c1) c2).undo_stack ≠ [] := by
    show (commitState cfg st0 c1).undo_stack ++ [⟨(commitState cfg st0 c1).history⟩] ≠ []
    simp
  obtain ⟨hu, hr, hrh⟩ := undo_redo_general _ hne
  rw [hh1, hh2]
  refine ⟨hu, hr, hrh, ?_⟩
  intro hst0 hmax
  have hhist1 : (commitState cfg st0 c1).history = [c1] := by
    rw [commitState_history_small cfg st0 c1 (by rw [hst0]; simp; omega), hst0]
    rfl
  rw [commitState_history_small cfg _ c2 (by rw [hhist1]; simp; omega), hhist1]
  rfl

/-- Concrete data for the C1 witness. -/
def siW1a : PerformInputs :=
  ⟨"Addition", .ok 1, .ok 2, fun a b => .ok (a + b), fun _ => none⟩

def siW1b : PerformInputs :=
  ⟨"Multiplication", .ok 3, .ok 4, fun a b => .ok (a * b), fun _ => none⟩

def cW1a : Calculation := ⟨"Addition", 1, 2, 3, 0⟩

def cW1b : Calculation := ⟨"Multiplication", 3, 4, 12, 1⟩

def cfgW1 : CalculatorConfig := ⟨3, false⟩

def stW1 : CalculatorState := ⟨[], [], []⟩

theorem undo_redo_roundtrip_witness :
    (undo (perform_operation fm0 cfgW1 (some siW1b) 1
       (perform_operation fm0 cfgW1 (some siW1a) 0 stW1).2).2).1 = true ∧
    (redo (undo (perform_operation fm0 cfgW1 (some siW1b) 1
       (perform_operation fm0 cfgW1 (some siW1a) 0 stW1).2).2).2).1 = true ∧
    (redo (undo (perform_operation fm0 cfgW1 (some siW1b) 1
       (perform_operation fm0 cfgW1 (some siW1a) 0 stW1).2).2).2).2.history =
      (perform_operation fm0 cfgW1 (some siW1b) 1
       (perform_operation fm0 cfgW1 (some siW1a) 0 stW1).2).2.history ∧
    (stW1.history = [] → 2 ≤ cfgW1.max_history_size →
      (perform_operation fm0 cfgW1 (some siW1b) 1
        (perform_operation fm0 cfgW1 (some siW1a) 0 stW1).2).2.history =
        [cW1a, cW1b]) :=
  undo_redo_roundtrip fm0 cfgW1 siW1a siW1b 0 1 stW1 1 2 3 cW1a 3 4 12 cW1b
    rfl rfl (by norm_num [siW1a]) (by norm_num [mkCalculation, calculate, siW1a, cW1a])
    rfl rfl rfl (by norm_num [siW1b])
    (by
      show mkCalculation fm0 "Multiplication" 3 4 1 = .ok cW1b
      rw [mkCalculation_ok fm0 "Multiplication" 3 4 1 12
        (by rw [calculate_multiplication]; norm_num)]
      rfl)
    rfl

/-- Claim C2: every successful `perform_operation` leaves the redo stack
empty (the clear at app/calculator.py line 224), and concretely: after one
calculation, an `undo()`, and a second calculation, a subsequent `redo()`
returns false because the new operation cleared the redo stack. -/
theorem perform_clears_redo (fm : FloatModel) (cfg : CalculatorConfig)
    (si1 si2 : PerformInputs) (now1 now2 : ℕ) (st0 : CalculatorState)
    (a1 b1 r1 : ℚ) (c1 : Calculation) (a2 b2 r2 : ℚ) (c2 : Calculation)
    (ha1 : si1.validated_a = .ok a1) (hb1 : si1.validated_b = .ok b1)
    (he1 : si1.execResult a1 b1 = .ok r1)
    (hc1 : mkCalculation fm si1.opName a1 b1 now1 = .ok c1)
    (hn1 : si1.notifyFail c1 = none)
    (ha2 : si2.validated_a = .ok a2) (hb2 : si2.validated_b = .ok b2)
    (he2 : si2.execResult a2 b2 = .ok r2)
    (hc2 : mkCalculation fm si2.opName a2 b2 now2 = .ok c2)
    (hn2 : si2.notifyFail c2 = none) :
    (∀ (strat : Option PerformInputs) (now3 : ℕ) (st : CalculatorState) (r : ℚ)
        (st2 : CalculatorState),
        perform_operation fm cfg strat now3 st = (.ok r, st2) → st2.redo_stack = []) ∧
    (undo (perform_operation fm cfg (some si1) now1 st0).2).1 = true ∧
    (redo (perform_operation fm cfg (some si2) now2
        (undo (perform_operation fm cfg (some si1) now1 st0).2).2).2).1 = false := by
  refine ⟨?_, ?_, ?_⟩
  · intro strat now3 st r st2 hok
    cases strat with
    | none =>
        have : (perform_operation fm cfg none now3 st).1 =
            .error (.operationError "No operation set") := rfl
        rw [hok] at this
        cases this
    | some si =>
        rcases htry : perform_try fm cfg si now3 st with ⟨res, st1⟩
        cases res with
        | ok r2 =>
            have hperf : perform_operation fm cfg (some si) now3 st = (.ok r2, st1) := by
              simp [perform_operation, htry]
            obtain ⟨c, hst1⟩ := perform_try_ok fm cfg si now3 st r2 st1 htry
            have h12 : st1 = st2 := congrArg Prod.snd (hperf.symm.trans hok)
            rw [← h12, hst1]
            rfl
        | error e =>
            have hperf : ∃ e2, perform_operation fm cfg (some si) now3 st =
                (.error e2, st1) := by
              cases e with
              | validationError m =>
                  exact ⟨.validationError m, by simp [perform_operation, htry]⟩
              | operationError m =>
                  exact ⟨.operationError ("Operation failed: " ++ m),
                    by simp [perform_operation, htry, PyExc.msg]⟩
              | valueError m =>
                  exact ⟨.operationError ("Operation failed: " ++ m),
                    by simp [perform_operation, htry, PyExc.msg]⟩
              | otherExc m =>
                  exact ⟨.operationError ("Operation failed: " ++ m),
                    by simp [perform_operation, htry, PyExc.msg]⟩
            obtain ⟨e2, hperf⟩ := hperf
            rw [hperf] at hok
            have := congrArg Prod.fst hok
            cases this
  · have hh1 : (perform_operation fm cfg (some si1) now1 st0).2 =
        commitState cfg st0 c1 := by
      rw [perform_commit fm cfg si1 now1 st0 a1 b1 r1 c1 ha1 hb1 he1 hc1 hn1]
    rw [hh1]
    show (undo (commitState cfg st0 c1)).1 = true
    simp [undo, commitState, List.getLast?_concat]
  · have hh1 : (perform_operation fm cfg (some si1) now1 st0).2 =
        commitState cfg st0 c1 := by
      rw [perform_commit fm cfg si1 now1 st0 a1 b1 r1 c1 ha1 hb1 he1 hc1 hn1]
    rw [hh1]
    have hh2 : (perform_operation fm cfg (some si2) now2
        ((undo (commitState cfg st0 c1)).2)).2 =
        commitState cfg ((undo (commitState cfg st0 c1)).2) c2 := by
      rw [perform_commit fm cfg si2 now2 ((undo (commitState cfg st0 c1)).2)
        a2 b2 r2 c2 ha2 hb2 he2 hc2 hn2]
    rw [hh2]
    show (redo (commitState cfg ((undo (commitState cfg st0 c1)).2) c2)).1 = false
    simp [redo, commitState]

/-- Concrete data for the C2 witness. -/
def siW2a : PerformInputs :=
  ⟨"Addition", .ok 4, .ok 5, fun a b => .ok (a + b), fun _ => none⟩

def siW2b : PerformInputs :=
  ⟨"Addition", .ok 6, .ok 7, fun a b => .ok (a + b), fun _ => none⟩

def cW2a : Calculation := ⟨"Addition", 4, 5, 9, 0⟩

def cW2b : Calculation := ⟨"Addition", 6, 7, 13, 1⟩

def cfgW2 : CalculatorConfig := ⟨4, false⟩

def stW2 : CalculatorState := ⟨[], [], []⟩

theorem perform_clears_redo_witness :
    (∀ (strat : Option PerformInputs) (now3 : ℕ) (st : CalculatorState) (r : ℚ)
        (st2 : CalculatorState),
        perform_operation fm0 cfgW2 strat now3 st = (.ok r, st2) → st2.redo_stack = []) ∧
    (undo (perform_operation fm0 cfgW2 (some siW2a) 0 stW2).2).1 = true ∧
    (redo (perform_operation fm0 cfgW2 (some siW2b) 1
        (undo (perform_operation fm0 cfgW2 (some siW2a) 0 stW2).2).2).2).1 = false :=
  perform_clears_redo fm0 cfgW2 siW2a siW2b 0 1 stW2 4 5 9 cW2a 6 7 13 cW2b
    rfl rfl (by norm_num [siW2a]) (by norm_num [mkCalculation, calculate, siW2a, cW2a])
    rfl rfl rfl (by norm_num [siW2b]) (by norm_num [mkCalculation, calculate, siW2b, cW2b])
    rfl

/-- Claim C3 (amended): the in-memory engine operations preserve the
invariant that the live history and every stacked snapshot are within
`max_history_size` (with `perform_operation` evicting the single oldest
entry when the bound would be exceeded); `load_history` on a file with no
data rows leaves the history unchanged, but on a nonempty file it installs
exactly one record per stored row with no truncation, so it preserves the
bound only when the file holds at most `max_history_size` rows; and with
`max_history_size = 2`, three successful operations leave exactly the last
two records, oldest evicted first. -/
theorem history_bound_preserved (fm : FloatModel) (cfg : CalculatorConfig)
    (si1 si2 si3 : PerformInputs) (now1 now2 now3 : ℕ) (st0 : CalculatorState)
    (a1 b1 r1 : ℚ) (c1 : Calculation) (a2 b2 r2 : ℚ) (c2 : Calculation)
    (a3 b3 r3 : ℚ) (c3 : Calculation)
    (ha1 : si1.validated_a = .ok a1) (hb1 : si1.validated_b = .ok b1)
    (he1 : si1.execResult a1 b1 = .ok r1)
    (hc1 : mkCalculation fm si1.opName a1 b1 now1 = .ok c1)
    (hn1 : si1.notifyFail c1 = none)
    (ha2 : si2.validated_a = .ok a2) (hb2 : si2.validated_b = .ok b2)
    (he2 : si2.execResult a2 b2 = .ok r2)
    (hc2 : mkCalculation fm si2.opName a2 b2 now2 = .ok c2)
    (hn2 : si2.notifyFail c2 = none)
    (ha3 : si3.validated_a = .ok a3) (hb3 : si3.validated_b = .ok b3)
    (he3 : si3.execResult a3 b3 = .ok r3)
    (hc3 : mkCalculation fm si3.opName a3 b3 now3 = .ok c3)
    (hn3 : si3.notifyFail c3 = none)
    (hst0 : st0.history = []) (hm : cfg.max_history_size = 2) :
    (∀ (cfg2 : CalculatorConfig) (strat : Option PerformInputs) (now : ℕ)
        (st : CalculatorState), Bounded cfg2 st →
        Bounded cfg2 (perform_operation fm cfg2 strat now st).2) ∧
    (∀ (cfg2 : CalculatorConfig) (st : CalculatorState),
        Bounded cfg2 st → Bounded cfg2 (undo st).2) ∧
    (∀ (cfg2 : CalculatorConfig) (st : CalculatorState),
        Bounded cfg2 st → Bounded cfg2 (redo st).2) ∧
    (∀ (cfg2 : CalculatorConfig) (st : CalculatorState),
        Bounded cfg2 (clear_history st)) ∧
    (∀ (now : ℕ) (rows : List CalcDict) (st st2 : CalculatorState),
        load_history fm now rows st = .ok st2 →
        (rows = [] → st2 = st) ∧
        (rows ≠ [] → st2.history.length = rows.length)) ∧
    (perform_operation fm cfg (some si3) now3
       (perform_operation fm cfg (some si2) now2
         (perform_operation fm cfg (some si1) now1 st0).2).2).2.history = [c2, c3] := by
  refine ⟨?_, ?_, ?_, ?_, ?_, ?_⟩
  · intro cfg2 strat now st hB
    rcases perform_operation_state fm cfg2 strat now st with h | ⟨c, h⟩
    · rw [h]; exact hB
    · rw [h]; exact Bounded_commitState cfg2 st c hB
  · exact fun cfg2 st hB => Bounded_undo cfg2 st hB
  · exact fun cfg2 st hB => Bounded_redo cfg2 st hB
  · intro cfg2 st
    refine ⟨by simp [clear_history], ?_, ?_⟩ <;> simp [clear_history]
  · intro now rows st st2 h
    unfold load_history at h
    by_cases hrows : rows = []
    · rw [if_pos hrows] at h
      cases h
      exact ⟨fun _ => rfl, fun hne => absurd hrows hne⟩
    · rw [if_neg hrows] at h
      refine ⟨fun he => absurd he hrows, fun _ => ?_⟩
      cases hlr : load_rows fm now rows with
      | error e => rw [hlr] at h; cases h
      | ok hist =>
          rw [hlr] at h
          cases h
          exact load_rows_length fm now rows hist hlr
  · have hh1 : (perform_operation fm cfg (some si1) now1 st0).2 =
        commitState cfg st0 c1 := by
      rw [perform_commit fm cfg si1 now1 st0 a1 b1 r1 c1 ha1 hb1 he1 hc1 hn1]
    have hh2 : (perform_operation fm cfg (some si2) now2 (commitState cfg st0 c1)).2 =
        commitState cfg (commitState cfg st0 c1) c2 := by
      rw [perform_commit fm cfg si2 now2 (commitState cfg st0 c1) a2 b2 r2 c2
        ha2 hb2 he2 hc2 hn2]
    have hh3 : (perform_operation fm cfg (some si3) now3
        (commitState cfg (commitState cfg st0 c1) c2)).2 =
        commitState cfg (commitState cfg (commitState cfg st0 c1) c2) c3 := by
      rw [perform_commit fm cfg si3 now3 (commitState cfg (commitState cfg st0 c1) c2)
        a3 b3 r3 c3 ha3 hb3 he3 hc3 hn3]
    have hhist1 : (commitState cfg st0 c1).history = [c1] := by
      rw [commitState_history_small cfg st0 c1 (by rw [hst0, hm]; simp), hst0]
      rfl
    have hhist2 : (commitState cfg (commitState cfg st0 c1) c2).history = [c1, c2] := by
      rw [commitState_history_small cfg _ c2 (by rw [hhist1, hm]; simp), hhist1]
      rfl
    have hhist3 : (commitState cfg (commitState cfg (commitState cfg st0 c1) c2) c3).history =
        [c2, c3] := by
      show (if cfg.max_history_size <
            ((commitState cfg (commitState cfg st0 c1) c2).history ++ [c3]).length
          then ((commitState cfg (commitState cfg st0 c1) c2).history ++ [c3]).drop 1
          else (commitState cfg (commitState cfg st0 c1) c2).history ++ [c3]) = [c2, c3]
      rw [hhist2, hm, if_pos (by simp)]
      rfl
    rw [hh1, hh2, hh3, hhist3]

/-- Concrete data for the C3 witness. -/
def siW3a : PerformInputs :=
  ⟨"Addition", .ok 1, .ok 1, fun a b => .ok (a + b), fun _ => none⟩

def siW3b : PerformInputs :=
  ⟨"Addition", .ok 2, .ok 2, fun a b => .ok (a + b), fun _ => none⟩

def siW3c : PerformInputs :=
  ⟨"Addition", .ok 3, .ok 3, fun a b => .ok (a + b), fun _ => none⟩

def cW3a : Calculation := ⟨"Addition", 1, 1, 2, 0⟩

def cW3b : Calculation := ⟨"Addition", 2, 2, 4, 1⟩

def cW3c : Calculation := ⟨"Addition", 3, 3, 6, 2⟩

def cfgW3 : CalculatorConfig := ⟨2, false⟩

def stW3 : CalculatorState := ⟨[], [], []⟩

theorem history_bound_preserved_witness :
    (∀ (cfg2 : CalculatorConfig) (strat : Option PerformInputs) (now : ℕ)
        (st : CalculatorState), Bounded cfg2 st →
        Bounded cfg2 (perform_operation fm0 cfg2 strat now st).2) ∧
    (∀ (cfg2 : CalculatorConfig) (st : CalculatorState),
        Bounded cfg2 st → Bounded cfg2 (undo st).2) ∧
    (∀ (cfg2 : CalculatorConfig) (st : CalculatorState),
        Bounded cfg2 st → Bounded cfg2 (redo st).2) ∧
    (∀ (cfg2 : CalculatorConfig) (st : CalculatorState),
        Bounded cfg2 (clear_history st)) ∧
    (∀ (now : ℕ) (rows : List CalcDict) (st st2 : CalculatorState),
        load_history fm0 now rows st = .ok st2 →
        (rows = [] → st2 = st) ∧
        (rows ≠ [] → st2.history.length = rows.length)) ∧
    (perform_operation fm0 cfgW3 (some siW3c) 2
       (perform_operation fm0 cfgW3 (some siW3b) 1
         (perform_operation fm0 cfgW3 (some siW3a) 0 stW3).2).2).2.history =
      [cW3b, cW3c] :=
  history_bound_preserved fm0 cfgW3 siW3a siW3b siW3c 0 1 2 stW3
    1 1 2 cW3a 2 2 4 cW3b 3 3 6 cW3c
    rfl rfl (by norm_num [siW3a]) (by norm_num [mkCalculation, calculate, siW3a, cW3a]) rfl
    rfl rfl (by norm_num [siW3b]) (by norm_num [mkCalculation, calculate, siW3b, cW3b]) rfl
    rfl rfl (by norm_num [siW3c]) (by norm_num [mkCalculation, calculate, siW3c, cW3c]) rfl
    rfl rfl

/-- Concrete serialized rows for the C3 counterexample. -/
def cC3a : Calculation := ⟨"Addition", 1, 1, 2, 0⟩

def cC3b : Calculation := ⟨"Addition", 2, 2, 4, 1⟩

def cC3c : Calculation := ⟨"Addition", 3, 3, 6, 2⟩

def rowsC3 : List CalcDict := [to_dict cC3a, to_dict cC3b, to_dict cC3c]

def cfgC3 : CalculatorConfig := ⟨2, false⟩

def stC3 : CalculatorState := ⟨[], [], []⟩

/-- Claim C3 counterexample: starting from a state satisfying the bound
with `max_history_size = 2`, the engine operation `load_history` on a
stored file of three valid rows succeeds and leaves three records in the
live history — it does not truncate, so it does not preserve
`len(history) ≤ max_history_size`. -/
theorem load_history_exceeds_bound :
    Bounded cfgC3 stC3 ∧
    load_history fm0 9 rowsC3 stC3 = .ok ⟨[cC3a, cC3b, cC3c], [], []⟩ ∧
    ¬ Bounded cfgC3 ⟨[cC3a, cC3b, cC3c], [], []⟩ := by
  have hA : from_dict fm0 9 (to_dict cC3a) = .ok (cC3a, false) :=
    from_dict_to_dict fm0 9 cC3a (by norm_num [calculate, cC3a])
  have hB : from_dict fm0 9 (to_dict cC3b) = .ok (cC3b, false) :=
    from_dict_to_dict fm0 9 cC3b (by norm_num [calculate, cC3b])
  have hC : from_dict fm0 9 (to_dict cC3c) = .ok (cC3c, false) :=
    from_dict_to_dict fm0 9 cC3c (by norm_num [calculate, cC3c])
  refine ⟨?_, ?_, ?_⟩
  · refine ⟨by simp [stC3, cfgC3], ?_, ?_⟩ <;> simp [stC3]
  · simp [load_history, load_rows, rowsC3, hA, hB, hC, stC3]
  · intro hcontra
    have h1 := hcontra.1
    simp [cfgC3] at h1
